import Mathlib

/-!
Shallow embedding of `modelscope/pipelines/base.py` (class `Pipeline`):
model resolution (`initiate_single_model`, `initiate_multiple_models`),
construction (`__init__`), invocation (`__call__`, `_process_single`,
`_process_iterator`), output validation (`_check_output`) and the default
`forward`.

Python dynamic values that can appear as a single-model argument are
embedded as the inductive `MVal`; the external hub collaborators
(`is_official_hub_path`, `osp.exists`, `snapshot_download`, `is_model`,
`Model.from_pretrained`) are opaque to this file's source and are kept as
an abstract parameter record `Hub`, so every theorem quantifying over
`Hub` holds for any behaviour of those collaborators.
-/

namespace ModelscopePipeline

/-- A Python value that may be passed as a single-model argument:
`None`, a string, an already-constructed `Model` instance (identified by a
`Nat` tag), or some other object (carrying only its truthiness, which is
all the source inspects on that branch). -/
inductive MVal where
  | vnone : MVal
  | vstr (s : String) : MVal
  | vmodel (m : Nat) : MVal
  | vother (truthy : Bool) : MVal
deriving DecidableEq, Repr

/-- Python truthiness of an `MVal`: `None` is falsy, a string is truthy iff
non-empty, a model instance is truthy, other objects carry their flag. -/
def MVal.truthy : MVal → Bool
  | .vnone => false
  | .vstr s => !(s = "")
  | .vmodel _ => true
  | .vother t => t

/-- Whether the value is an already-constructed model instance
(`isinstance(model, Model)`). -/
def MVal.isModelInstance : MVal → Bool
  | .vmodel _ => true
  | _ => false

/-- Whether the value is a string (`isinstance(model, str)`). -/
def MVal.isStr : MVal → Bool
  | .vstr _ => true
  | _ => false

/-- Modelled from the spec: the external hub collaborators used by
`initiate_single_model`, whose code is outside this fragment. The spec
treats them as opaque: `isOfficialHubPath` recognizes hub references,
`pathExists` is `osp.exists`, `snapshotDownload` resolves an identifier to
a local path, `isModelDir` is `is_model` on a path, and `fromPretrained`
constructs a model instance from a path. -/
structure Hub where
  isOfficialHubPath : String → Bool
  pathExists : String → Bool
  snapshotDownload : String → String
  isModelDir : String → Bool
  fromPretrained : String → Nat

/-- The invalid-type error message raised by `initiate_single_model`
(the dynamic `type(model)` suffix of the f-string is dropped). -/
def invalidModelTypeMsg : String :=
  "model type for single model is either str or Model"

/-- `Pipeline.initiate_single_model`: a recognized hub-path string is
downloaded if it does not exist locally and turned into a model instance
when the resolved path is a model directory (otherwise the path string is
returned); a model instance is returned unchanged; any other value raises
`ValueError` when truthy and non-string, and is returned unchanged
otherwise. -/
def initiate_single_model (hub : Hub) (model : MVal) : Except String MVal :=
  match model with
  | .vstr s =>
      if hub.isOfficialHubPath s then
        let path := if hub.pathExists s then s else hub.snapshotDownload s
        if hub.isModelDir path then .ok (.vmodel (hub.fromPretrained path))
        else .ok (.vstr path)
      else
        .ok (.vstr s)
  | .vmodel m => .ok (.vmodel m)
  | .vnone => .ok .vnone
  | .vother t =>
      if t then .error invalidModelTypeMsg
      else .ok (.vother t)

/-- `Pipeline.initiate_multiple_models`: resolve each entry in order and
collect the results; an exception in any entry propagates. -/
def initiate_multiple_models (hub : Hub) : List MVal → Except String (List MVal)
  | [] => .ok []
  | v :: rest =>
      match initiate_single_model hub v with
      | .error e => .error e
      | .ok m =>
          match initiate_multiple_models hub rest with
          | .error e => .error e
          | .ok ms => .ok (m :: ms)

/-- The model-related attributes set by `Pipeline.__init__`:
`self.model` (`none` when the attribute was never assigned, which happens
on the list branch), `self.models` and `self.has_multiple_models`. -/
structure PipeState where
  model : Option MVal
  models : List MVal
  has_multiple_models : Bool
deriving DecidableEq, Repr

/-- The `model` argument of `Pipeline.__init__`: either a bare (non-list)
value, or a list of values. The bare default `None` is `.bare .vnone`. -/
inductive ModelArg where
  | bare (v : MVal) : ModelArg
  | list (vs : List MVal) : ModelArg
deriving DecidableEq, Repr

/-- The model-resolution part of `Pipeline.__init__`: a bare argument is
resolved by `initiate_single_model` and stored as both `self.model` and
the sole element of `self.models`; a list argument is resolved element by
element into `self.models`, leaving `self.model` unset;
`self.has_multiple_models` is true iff more than one entry results. -/
def pipelineInit (hub : Hub) (arg : ModelArg) : Except String PipeState :=
  match arg with
  | .bare v =>
      match initiate_single_model hub v with
      | .error e => .error e
      | .ok m =>
          .ok { model := some m
                models := [m]
                has_multiple_models := decide (1 < [m].length) }
  | .list vs =>
      match initiate_multiple_models hub vs with
      | .error e => .error e
      | .ok ms =>
          .ok { model := none
                models := ms
                has_multiple_models := decide (1 < ms.length) }

/-- Errors that the default `forward` can surface: the two `assert`
preconditions, the `AttributeError` when `self.model` was never assigned
(list-branch construction), and the `TypeError` of calling a non-callable
`self.model` (for example a path string returned by resolution). -/
inductive ForwardErr where
  | attributeError : ForwardErr
  | assertNoModel : ForwardErr
  | assertMultipleModels : ForwardErr
  | notCallable : ForwardErr
deriving DecidableEq, Repr

/-- `Pipeline.forward` (default implementation): reading `self.model`
fails when the attribute is unset; `assert self.model is not None` fails
when it is `None`; `assert not self.has_multiple_models` fails in
multi-model mode; otherwise `self.model(inputs, **forward_params)` is
returned, which is only possible when `self.model` is a model instance
(interpreted through `modelApply`). -/
def forward_default {β γ π : Type} (st : PipeState) (modelApply : Nat → β → π → γ)
    (inputs : β) (forward_params : π) : Except ForwardErr γ :=
  match st.model with
  | none => .error .attributeError
  | some m =>
      if m = .vnone then .error .assertNoModel
      else if st.has_multiple_models then .error .assertMultipleModels
      else match m with
        | .vmodel i => .ok (modelApply i inputs forward_params)
        | _ => .error .notCallable

/-- A concrete hub instantiation used for closed witness statements:
nothing is an official hub path. -/
def hub0 : Hub :=
  { isOfficialHubPath := fun _ => false
    pathExists := fun _ => false
    snapshotDownload := fun s => s
    isModelDir := fun _ => false
    fromPretrained := fun _ => 0 }

/-- The final output mapping produced by `postprocess`: a Python dict
embedded as an association list from key names to (abstract) values. -/
def Output : Type := List (String × Nat)

instance : DecidableEq Output := by
  unfold Output
  infer_instance

/-- Python key membership `k in input` on an output dict. -/
def hasKey (out : Output) (k : String) : Bool :=
  (out.map Prod.fst).contains k

/-- Errors surfaced during single-item processing: the `ValueError` raised
by `_check_output` (carrying the registered expected keys and the missing
keys, exactly as the message interpolates them), or any exception raised
inside `preprocess` / `forward` / `postprocess`. -/
inductive PipelineError where
  | outputKeysMissing (expected : List String) (missing : List String) : PipelineError
  | other (msg : String) : PipelineError
deriving DecidableEq, Repr

/-- Whether an `Except` computation succeeded. -/
def isOkE {ε α : Type} : Except ε α → Bool
  | .ok _ => true
  | .error _ => false

/-- `Pipeline._check_output`: look the task name up in `TASK_OUTPUTS`;
when absent, log a warning (returned as the second component) and return
without error; when present, collect every expected key missing from the
output and raise `ValueError` naming the expected and missing keys iff at
least one is missing. -/
def _check_output (task_outputs : List (String × List String)) (group_key : String)
    (input : Output) : Except PipelineError Unit × List String :=
  match task_outputs.lookup group_key with
  | none => (.ok (), ["task " ++ group_key ++ " output keys are missing"])
  | some output_keys =>
      let missing_keys := output_keys.filter (fun k => !(hasKey input k))
      if 0 < missing_keys.length then
        (.error (.outputKeysMissing output_keys missing_keys), [])
      else (.ok (), [])

/-- A concrete `Pipeline` subclass as `__call__` sees it: the (possibly
overridden) parameter sanitizer and the three processing stages, each
allowed to raise, together with the pipeline's registry key `group_key`
(dynamically attached by the registry) and the process-wide `TASK_OUTPUTS`
table. `ι` is the single-input type, `β` the preprocessed form, `γ` the
model output, `π` the keyword-parameter bundle type. -/
structure PipeDef (ι β γ π : Type) where
  sanitize_parameters : π → π × π × π
  preprocess : ι → π → Except PipelineError β
  forward : β → π → Except PipelineError γ
  postprocess : γ → π → Except PipelineError Output
  task_outputs : List (String × List String)
  group_key : String

/-- The default `_sanitize_parameters`: empty preprocess and forward
parameter sets, all keyword parameters routed to postprocess. -/
def default_sanitize_parameters (pipeline_parameters : List (String × Nat)) :
    List (String × Nat) × List (String × Nat) × List (String × Nat) :=
  ([], [], pipeline_parameters)

/-- `Pipeline._process_single`: split the keyword parameters with the
sanitizer, then run `preprocess`, `forward`, `postprocess` in sequence on
their respective parameter subsets, validate with `_check_output`, and
return the postprocess result; any exception propagates. -/
def _process_single {ι β γ π : Type} (p : PipeDef ι β γ π) (input : ι) (kwargs : π) :
    Except PipelineError Output :=
  let ps := p.sanitize_parameters kwargs
  match p.preprocess input ps.1 with
  | .error e => .error e
  | .ok a =>
      match p.forward a ps.2.1 with
      | .error e => .error e
      | .ok b =>
          match p.postprocess b ps.2.2 with
          | .error e => .error e
          | .ok out =>
              match (_check_output p.task_outputs p.group_key out).1 with
              | .error e => .error e
              | .ok _ => .ok out

/-- The list branch of `Pipeline.__call__`: process the elements in input
order, appending each single-item result; the first exception aborts the
whole loop with no partial list. -/
def processList {ι β γ π : Type} (p : PipeDef ι β γ π) (kwargs : π) :
    List ι → Except PipelineError (List Output)
  | [] => .ok []
  | x :: rest =>
      match _process_single p x kwargs with
      | .error e => .error e
      | .ok y =>
          match processList p kwargs rest with
          | .error e => .error e
          | .ok ys => .ok (y :: ys)

/-- The shape of the `__call__` argument: a Python `list`, a `PyDataset`
(embedded by its finite iteration sequence), or a single scalar item. The
constructors are disjoint, matching the `isinstance` dispatch order. -/
inductive PInput (ι : Type) where
  | scalar (x : ι) : PInput ι
  | list (xs : List ι) : PInput ι
  | dataset (ds : List ι) : PInput ι
deriving DecidableEq, Repr

/-- The value returned by `Pipeline.__call__`: a plain output dict, a list
of output dicts, or the generator object produced by `_process_iterator`
(represented by its not-yet-consumed dataset elements; creating it runs no
body code). -/
inductive PyResult (ι : Type) where
  | dict (d : Output) : PyResult ι
  | list (ds : List Output) : PyResult ι
  | gen (pending : List ι) : PyResult ι
deriving DecidableEq

/-- `Pipeline.__call__`: dispatch on the input shape. A list is processed
eagerly element by element into a list; a dataset immediately returns the
generator without processing anything; otherwise the single-item result is
returned directly. -/
def callPipeline {ι β γ π : Type} (p : PipeDef ι β γ π)
    (input : PInput ι) (kwargs : π) : Except PipelineError (PyResult ι) :=
  match input with
  | .list xs =>
      match processList p kwargs xs with
      | .error e => .error e
      | .ok ys => .ok (.list ys)
  | .dataset ds => .ok (.gen ds)
  | .scalar x =>
      match _process_single p x kwargs with
      | .error e => .error e
      | .ok y => .ok (.dict y)

/-- Pulling `n` times from the generator `_process_iterator(input)`:
each pull takes the next dataset element, runs `_process_single` on it at
that moment, and yields the result; the pulled element is recorded as the
first component, so the list of first components is the exact trace of
elements on which `_process_single` was forced. An uncaught exception is
delivered to the consumer on that pull and exhausts the generator. -/
def _process_iterator_pull {ι β γ π : Type} (p : PipeDef ι β γ π) (kwargs : π) :
    Nat → List ι → List (ι × Except PipelineError Output)
  | 0, _ => []
  | _ + 1, [] => []
  | n + 1, e :: rest =>
      match _process_single p e kwargs with
      | .error err => [(e, .error err)]
      | .ok y => (e, .ok y) :: _process_iterator_pull p kwargs n rest

/-- A concrete pipeline used for closed witness statements: preprocess
adds one, forward doubles, postprocess wraps the number under key "a",
and the task "t" is registered to require exactly key "a". -/
def pipe0 : PipeDef Nat Nat Nat (List (String × Nat)) :=
  { sanitize_parameters := default_sanitize_parameters
    preprocess := fun x _ => .ok (x + 1)
    forward := fun b _ => .ok (b * 2)
    postprocess := fun c _ => .ok [("a", c)]
    task_outputs := [("t", ["a"])]
    group_key := "t" }

/-- A concrete pipeline whose preprocess raises on input `0`, used for
closed witness statements about failure propagation; its task "u" is not
registered in `task_outputs`. -/
def pipe1 : PipeDef Nat Nat Nat (List (String × Nat)) :=
  { sanitize_parameters := default_sanitize_parameters
    preprocess := fun x _ => if x = 0 then .error (.other "boom") else .ok (x + 1)
    forward := fun b _ => .ok (b * 2)
    postprocess := fun c _ => .ok [("a", c)]
    task_outputs := [("t", ["a"])]
    group_key := "u" }

/-! ## Helper lemmas -/

lemma processList_of_forall₂ {ι β γ π : Type} (p : PipeDef ι β γ π) (kwargs : π)
    {xs : List ι} {ys : List Output}
    (h : List.Forall₂ (fun x y => _process_single p x kwargs = Except.ok y) xs ys) :
    processList p kwargs xs = .ok ys := by
  induction h with
  | nil => rfl
  | cons hxy _ ih =>
      simp only [processList, hxy, ih]

lemma processList_append_error {ι β γ π : Type} (p : PipeDef ι β γ π) (kwargs : π)
    (pre rest : List ι) (x : ι) (e : PipelineError)
    (hok : ∀ a ∈ pre, isOkE (_process_single p a kwargs) = true)
    (hfail : _process_single p x kwargs = .error e) :
    processList p kwargs (pre ++ x :: rest) = .error e := by
  induction pre with
  | nil =>
      simp only [List.nil_append, processList, hfail]
  | cons a t ih =>
      have ha := hok a (by simp)
      obtain ⟨y, hy⟩ : ∃ y, _process_single p a kwargs = .ok y := by
        cases hps : _process_single p a kwargs with
        | ok y => exact ⟨y, rfl⟩
        | error err => rw [hps] at ha; simp [isOkE] at ha
      have ht : ∀ a ∈ t, isOkE (_process_single p a kwargs) = true :=
        fun b hb => hok b (by simp [hb])
      simp only [List.cons_append, processList, hy, List.append_eq]
      rw [ih ht]

lemma pull_eq_take_map {ι β γ π : Type} (p : PipeDef ι β γ π) (kwargs : π) :
    ∀ (n : Nat) (ds : List ι),
      (∀ e ∈ ds.take n, isOkE (_process_single p e kwargs) = true) →
      _process_iterator_pull p kwargs n ds =
        (ds.take n).map (fun e => (e, _process_single p e kwargs)) := by
  intro n
  induction n with
  | zero => intro ds _; simp [_process_iterator_pull]
  | succ m ih =>
      intro ds h
      cases ds with
      | nil => simp [_process_iterator_pull]
      | cons e rest =>
          have he := h e (by simp)
          obtain ⟨y, hy⟩ : ∃ y, _process_single p e kwargs = .ok y := by
            cases hps : _process_single p e kwargs with
            | ok y => exact ⟨y, rfl⟩
            | error err => rw [hps] at he; simp [isOkE] at he
          have hrest : ∀ a ∈ rest.take m, isOkE (_process_single p a kwargs) = true :=
            fun a ha => h a (by simp [ha])
          simp [_process_iterator_pull, hy, ih rest hrest]

/-! ## Claim theorems -/

/-- C1: for a single scalar input, `__call__` returns the plain mapping
`postprocess(forward(preprocess(input)))` directly (a dict, not wrapped in
a list), with the keyword parameters split by the sanitizer into the
preprocess, forward and postprocess subsets, provided each stage and the
output check succeed. -/
theorem call_scalar_returns_composition {ι β γ π : Type} (p : PipeDef ι β γ π)
    (x : ι) (kwargs : π) (b : β) (c : γ) (d : Output)
    (hpre : p.preprocess x (p.sanitize_parameters kwargs).1 = .ok b)
    (hfwd : p.forward b (p.sanitize_parameters kwargs).2.1 = .ok c)
    (hpost : p.postprocess c (p.sanitize_parameters kwargs).2.2 = .ok d)
    (hchk : (_check_output p.task_outputs p.group_key d).1 = .ok ()) :
    callPipeline p (.scalar x) kwargs = .ok (.dict d) := by
  simp [callPipeline, _process_single, hpre, hfwd, hpost, hchk]

/-- Witness for C1 on the concrete pipeline `pipe0` at input `3`. -/
theorem call_scalar_returns_composition_witness :
    callPipeline pipe0 (PInput.scalar 3) [] = .ok (.dict [("a", 8)]) :=
  call_scalar_returns_composition pipe0 3 [] 4 8 [("a", 8)] rfl rfl rfl rfl

/-- C2: for a list input whose elements each have a successful single-item
result (in order, element by element — encoded by `List.Forall₂`),
`__call__` returns the ordered list of those per-item results, of the same
length as the input. -/
theorem call_list_maps_elements {ι β γ π : Type} (p : PipeDef ι β γ π)
    (xs : List ι) (ys : List Output) (kwargs : π)
    (h : List.Forall₂ (fun x y => _process_single p x kwargs = Except.ok y) xs ys) :
    callPipeline p (.list xs) kwargs = .ok (.list ys) ∧ ys.length = xs.length := by
  refine ⟨?_, h.length_eq.symm⟩
  simp [callPipeline, processList_of_forall₂ p kwargs h]

/-- Witness for C2 on `pipe0` with the two-element list `[1, 2]`. -/
theorem call_list_maps_elements_witness :
    callPipeline pipe0 (PInput.list [1, 2]) [] =
      .ok (.list [[("a", 4)], [("a", 6)]])
    ∧ ([[("a", 4)], [("a", 6)]] : List Output).length = [1, 2].length :=
  call_list_maps_elements pipe0 [1, 2] [[("a", 4)], [("a", 6)]] []
    (List.Forall₂.cons rfl (List.Forall₂.cons rfl List.Forall₂.nil))

/-- C9: for a list input, if every element before position `j` succeeds
and the element at `j` fails, the failure propagates out of `__call__`
unchanged and no partial list of results is returned. -/
theorem call_list_aborts_on_failure {ι β γ π : Type} (p : PipeDef ι β γ π)
    (pre rest : List ι) (x : ι) (kwargs : π) (e : PipelineError)
    (hok : ∀ a ∈ pre, isOkE (_process_single p a kwargs) = true)
    (hfail : _process_single p x kwargs = .error e) :
    callPipeline p (.list (pre ++ x :: rest)) kwargs = .error e := by
  simp [callPipeline, processList_append_error p kwargs pre rest x e hok hfail]

/-- Witness for C9 on `pipe1`, which fails at element `0` of `[1, 0, 2]`. -/
theorem call_list_aborts_on_failure_witness :
    callPipeline pipe1 (PInput.list ([1] ++ 0 :: [2])) [] =
      .error (.other "boom") :=
  call_list_aborts_on_failure pipe1 [1] [2] 0 [] (.other "boom")
    (by intro a ha; simp at ha; subst ha; rfl) rfl

/-- C4: for a dataset input, `__call__` immediately returns the generator
with the whole dataset still pending (no element processed), and pulling
`n` times yields exactly the single-item results of the first `n` dataset
elements in iteration order; the trace of elements on which
`_process_single` was forced (the first components) is exactly those first
`n` elements, so no later element is evaluated. -/
theorem call_dataset_lazy {ι β γ π : Type} (p : PipeDef ι β γ π)
    (ds : List ι) (kwargs : π) (n : Nat)
    (hok : ∀ e ∈ ds.take n, isOkE (_process_single p e kwargs) = true) :
    callPipeline p (.dataset ds) kwargs = .ok (.gen ds)
    ∧ _process_iterator_pull p kwargs n ds =
        (ds.take n).map (fun e => (e, _process_single p e kwargs)) :=
  ⟨rfl, pull_eq_take_map p kwargs n ds hok⟩

/-- Witness for C4 on `pipe0` with the dataset `[1, 2, 3]`, pulling twice. -/
theorem call_dataset_lazy_witness :
    callPipeline pipe0 (PInput.dataset [1, 2, 3]) [] = .ok (.gen [1, 2, 3])
    ∧ _process_iterator_pull pipe0 [] 2 [1, 2, 3] =
        ([1, 2, 3].take 2).map (fun e => (e, _process_single pipe0 e [])) :=
  call_dataset_lazy pipe0 [1, 2, 3] [] 2 (by decide)

/-- C3: output validation errors exactly when the task is registered and
some required key is absent; the raised error names exactly the keys that
are absent (in registry order); and an unregistered task never errors but
emits a warning. -/
theorem check_output_characterization (reg : List (String × List String))
    (gk : String) (out : Output) :
    (isOkE (_check_output reg gk out).1 = false ↔
      ∃ keys, reg.lookup gk = some keys ∧ ∃ k, k ∈ keys ∧ hasKey out k = false)
    ∧ (∀ exp miss, (_check_output reg gk out).1 =
          .error (.outputKeysMissing exp miss) →
        reg.lookup gk = some exp ∧ miss = exp.filter (fun k => !(hasKey out k)))
    ∧ (reg.lookup gk = none →
        (_check_output reg gk out).1 = .ok () ∧ (_check_output reg gk out).2 ≠ []) := by
  refine ⟨?_, ?_, ?_⟩
  · constructor
    · intro h
      cases hl : reg.lookup gk with
      | none => simp [_check_output, hl, isOkE] at h
      | some keys =>
          refine ⟨keys, rfl, ?_⟩
          simp only [_check_output, hl, isOkE] at h
          by_cases hm : 0 < (keys.filter (fun k => !(hasKey out k))).length
          · have hne : keys.filter (fun k => !(hasKey out k)) ≠ [] := by
              intro hnil
              rw [hnil] at hm
              simp at hm
            obtain ⟨k, hk⟩ := List.exists_mem_of_ne_nil _ hne
            have hprop := List.of_mem_filter hk
            exact ⟨k, List.mem_of_mem_filter hk, by simpa using hprop⟩
          · rw [if_neg hm] at h
            simp at h
    · intro ⟨keys, hk, k, hkmem, hkabs⟩
      have hm : 0 < (keys.filter (fun j => !(hasKey out j))).length := by
        have hmem : k ∈ keys.filter (fun j => !(hasKey out j)) :=
          List.mem_filter.mpr ⟨hkmem, by simp [hkabs]⟩
        exact List.length_pos.mpr (List.ne_nil_of_mem hmem)
      simp [_check_output, hk, hm, isOkE]
  · intro exp miss h
    cases hl : reg.lookup gk with
    | none => simp [_check_output, hl] at h
    | some keys =>
        simp only [_check_output, hl] at h
        by_cases hm : 0 < (keys.filter (fun k => !(hasKey out k))).length
        · rw [if_pos hm] at h
          simp only [Except.error.injEq, PipelineError.outputKeysMissing.injEq] at h
          obtain ⟨he, hmiss⟩ := h
          subst he
          exact ⟨rfl, hmiss.symm⟩
        · rw [if_neg hm] at h
          simp at h
  · intro hnone
    simp [_check_output, hnone]

/-- Witness for C3: task "u" is unregistered in the registry of `pipe0`,
so validation passes and a warning is recorded. -/
theorem check_output_characterization_witness :
    (_check_output [("t", ["a"])] "u" [("b", 1)]).1 = .ok ()
    ∧ (_check_output [("t", ["a"])] "u" [("b", 1)]).2 ≠ [] :=
  (check_output_characterization [("t", ["a"])] "u" [("b", 1)]).2.2 rfl

/-- C5: the default `forward` fails whenever the pipeline has no usable
single model (the `self.model` attribute unset or `None`) or multi-model
mode is active; when a single resolved model instance is present and
multi-model mode is off, it returns exactly the model invoked on the
intermediate result with the forward parameter subset; and after any
successful construction, multi-model mode is set iff more than one
resolved model is present. -/
theorem forward_default_requires_single_model {β γ π : Type} (st : PipeState)
    (modelApply : Nat → β → π → γ) (inputs : β) (forward_params : π) :
    ((st.model = none ∨ st.model = some .vnone ∨ st.has_multiple_models = true) →
      isOkE (forward_default st modelApply inputs forward_params) = false)
    ∧ (∀ i, st.model = some (.vmodel i) → st.has_multiple_models = false →
        forward_default st modelApply inputs forward_params =
          .ok (modelApply i inputs forward_params))
    ∧ (∀ (hub : Hub) (arg : ModelArg) (st2 : PipeState),
        pipelineInit hub arg = .ok st2 →
        st2.has_multiple_models = decide (1 < st2.models.length)) := by
  refine ⟨?_, ?_, ?_⟩
  · intro h
    rcases h with h | h | h
    · simp [forward_default, h, isOkE]
    · simp [forward_default, h, isOkE]
    · unfold forward_default
      cases hsm : st.model with
      | none => simp [isOkE]
      | some m =>
          by_cases hn : m = MVal.vnone
          · simp [hn, isOkE]
          · simp [hn, h, isOkE]
  · intro i hsm hmul
    simp [forward_default, hsm, hmul]
  · intro hub arg st2 h
    cases arg with
    | bare v =>
        cases hv : initiate_single_model hub v with
        | error e => simp [pipelineInit, hv] at h
        | ok m =>
            simp only [pipelineInit, hv, Except.ok.injEq] at h
            rw [← h]
    | list vs =>
        cases hv : initiate_multiple_models hub vs with
        | error e => simp [pipelineInit, hv] at h
        | ok ms =>
            simp only [pipelineInit, hv, Except.ok.injEq] at h
            rw [← h]

/-- Witness for C5 at a concrete single-model state: the model with tag 5
is invoked on input 7. -/
theorem forward_default_requires_single_model_witness :
    forward_default
        { model := some (.vmodel 5), models := [.vmodel 5], has_multiple_models := false }
        (fun i b (_ : List (String × Nat)) => i + b) 7 [] = .ok 12 :=
  (forward_default_requires_single_model
      { model := some (.vmodel 5), models := [.vmodel 5], has_multiple_models := false }
      (fun i b _ => i + b) 7 []).2.1 5 rfl rfl

/-- Counterexample to C6 as stated: the non-empty string "abc" is not a
recognized hub identifier under `hub0` and is not a model instance, yet
`initiate_single_model` returns it unchanged instead of failing — the
invalid-type error is only raised for truthy non-string, non-model
values. -/
theorem initiate_single_model_nonhub_string_counterexample :
    MVal.truthy (.vstr "abc") = true
    ∧ hub0.isOfficialHubPath "abc" = false
    ∧ MVal.isModelInstance (.vstr "abc") = false
    ∧ initiate_single_model hub0 (.vstr "abc") = .ok (.vstr "abc") :=
  ⟨rfl, rfl, rfl, rfl⟩

/-- C6 (amended): for every truthy single-model argument that is neither a
string nor a model instance, resolution fails at construction with the
invalid-type error. -/
theorem initiate_single_model_invalid_type (hub : Hub) (v : MVal)
    (ht : v.truthy = true) (hs : v.isStr = false) (hm : v.isModelInstance = false) :
    initiate_single_model hub v = .error invalidModelTypeMsg := by
  cases v with
  | vnone => simp [MVal.truthy] at ht
  | vstr s => simp [MVal.isStr] at hs
  | vmodel m => simp [MVal.isModelInstance] at hm
  | vother t =>
      simp only [MVal.truthy] at ht
      simp [initiate_single_model, ht]

/-- Witness for the amended C6 at the truthy non-string, non-model value. -/
theorem initiate_single_model_invalid_type_witness :
    initiate_single_model hub0 (.vother true) = .error invalidModelTypeMsg :=
  initiate_single_model_invalid_type hub0 (.vother true) rfl rfl rfl

/-- Counterexample to C7 as stated: constructing with the default model
argument `None` leaves `self.models = [None]`, a non-empty list, not the
empty list. -/
theorem pipelineInit_none_counterexample :
    pipelineInit hub0 (.bare .vnone) =
      .ok { model := some .vnone, models := [.vnone], has_multiple_models := false }
    ∧ ({ model := some .vnone, models := [.vnone],
          has_multiple_models := false } : PipeState).models ≠ [] :=
  ⟨rfl, by simp⟩

/-- C7 (amended): constructing a pipeline with no model argument leaves
the resolved model list equal to the one-element list `[None]` (and the
convenience reference set to `None`) — it never leaves it empty. -/
theorem pipelineInit_none_models (hub : Hub) (st : PipeState)
    (h : pipelineInit hub (.bare .vnone) = .ok st) :
    st.models = [.vnone] ∧ st.model = some .vnone := by
  simp only [pipelineInit, initiate_single_model, Except.ok.injEq] at h
  rw [← h]
  exact ⟨rfl, rfl⟩

/-- Witness for the amended C7 at the concrete hub `hub0`. -/
theorem pipelineInit_none_models_witness :
    ({ model := some .vnone, models := [.vnone],
        has_multiple_models := false } : PipeState).models = [.vnone]
    ∧ ({ model := some .vnone, models := [.vnone],
          has_multiple_models := false } : PipeState).model = some .vnone :=
  pipelineInit_none_models hub0
    { model := some .vnone, models := [.vnone], has_multiple_models := false } rfl

/-- Counterexample to C8 as stated: supplying the model as a one-element
list yields a single-model pipeline (`models` has length 1) whose
convenience reference `self.model` is never assigned. -/
theorem pipelineInit_singleton_list_counterexample :
    pipelineInit hub0 (.list [.vmodel 0]) =
      .ok { model := none, models := [.vmodel 0], has_multiple_models := false }
    ∧ ({ model := none, models := [.vmodel 0],
          has_multiple_models := false } : PipeState).models.length ≤ 1
    ∧ ({ model := none, models := [.vmodel 0],
          has_multiple_models := false } : PipeState).model = none :=
  ⟨rfl, by simp, rfl⟩

/-- C8 (amended): for every pipeline constructed from a bare (non-list)
model argument, the convenience single-model reference is present and is
exactly the sole element of the resolved model list. -/
theorem pipelineInit_bare_model_ref (hub : Hub) (v : MVal) (st : PipeState)
    (h : pipelineInit hub (.bare v) = .ok st) :
    ∃ m, st.model = some m ∧ st.models = [m] := by
  cases hv : initiate_single_model hub v with
  | error e => simp [pipelineInit, hv] at h
  | ok m =>
      simp only [pipelineInit, hv, Except.ok.injEq] at h
      exact ⟨m, by rw [← h]; exact ⟨rfl, rfl⟩⟩

/-- Witness for the amended C8 with a bare model instance argument. -/
theorem pipelineInit_bare_model_ref_witness :
    ∃ m, ({ model := some (.vmodel 3), models := [.vmodel 3],
             has_multiple_models := false } : PipeState).model = some m
      ∧ ({ model := some (.vmodel 3), models := [.vmodel 3],
            has_multiple_models := false } : PipeState).models = [m] :=
  pipelineInit_bare_model_ref hub0 (.vmodel 3)
    { model := some (.vmodel 3), models := [.vmodel 3], has_multiple_models := false } rfl

/-- C10: single-model resolution is the identity on model instances and
on falsy arguments (`None`, the empty string, falsy objects), returning
the very same value unchanged; for the empty string this relies on the
external hub predicate not recognizing "" as an official hub path. -/
theorem initiate_single_model_identity (hub : Hub) (v : MVal)
    (h : v.isModelInstance = true ∨ v.truthy = false)
    (hhub : hub.isOfficialHubPath "" = false) :
    initiate_single_model hub v = .ok v := by
  cases v with
  | vnone => rfl
  | vmodel m => rfl
  | vstr s =>
      rcases h with h | h
      · simp [MVal.isModelInstance] at h
      · have hs : s = "" := by simpa [MVal.truthy] using h
        subst hs
        simp [initiate_single_model, hhub]
  | vother t =>
      rcases h with h | h
      · simp [MVal.isModelInstance] at h
      · simp only [MVal.truthy] at h
        simp [initiate_single_model, h]

/-- Witness for C10 at the falsy argument `None` under `hub0`. -/
theorem initiate_single_model_identity_witness :
    initiate_single_model hub0 .vnone = .ok .vnone :=
  initiate_single_model_identity hub0 .vnone (Or.inr rfl) rfl

end ModelscopePipeline
